import Mathlib

/-!
Verification of the `demesdraw` plotting routines (`utils.py` and
`size_history.py`).

The Python data model (the `demes` library's graph of populations) is
embedded shallowly: times and sizes, which are Python floats in the
source, are modelled as exact rationals wherever the code only moves
them around and compares them, and are coerced into the reals at the
points where the code applies `np.exp` / `np.log` / division.  An
unbounded ("infinite") start time, which the source represents as the
float `inf` and tests with `np.isinf`, is modelled by a dedicated
constructor.  Matplotlib drawing calls performed by `size_history` are
modelled as a list of drawing commands returned alongside an optional
error; a raised `ValueError` is the error component, and the commands
accumulated before the raise are the plots that had already mutated the
axes when the exception escaped.
-/

/-- A point on the time axis: a finite time, or the float `inf` used by
`demes` for the start time of a root deme (`np.isinf` tests for it). -/
inductive Time where
  | fin (t : ℚ)
  | inf
deriving DecidableEq

/-- One epoch of a deme, as read by the plotting code: `start_time`,
`end_time`, `start_size`, `end_size` and the `size_function` string. -/
structure Epoch where
  start_time : Time
  end_time : ℚ
  start_size : ℚ
  end_size : ℚ
  size_function : String
deriving DecidableEq

/-- A deme: identifier, start time, ancestor identifiers, and its
time-ordered (oldest first) epochs. -/
structure Deme where
  id : String
  start_time : Time
  ancestors : List String
  epochs : List Epoch
deriving DecidableEq

/-- A demes graph: the demes plus the global time units. -/
structure Graph where
  demes : List Deme
  time_units : String
deriving DecidableEq

/-- Python's built-in `max` over a sequence: `None` (a `ValueError`)
for the empty sequence, otherwise the maximum element. -/
def seqMax : List ℚ → Option ℚ
  | [] => none
  | a :: as => some (as.foldl max a)

/-- The per-deme contribution to `epoch0_times` in `inf_start_time`:
the first epoch's `end_time`, and its `start_time` when that is not
`inf`.  A deme with no epochs contributes nothing (the `demes` library
guarantees every deme has at least one epoch; the Python code indexes
`deme.epochs[0]` unconditionally). -/
def demeEpoch0Times (d : Deme) : List ℚ :=
  match d.epochs with
  | [] => []
  | e :: _ =>
    e.end_time :: (match e.start_time with
      | Time.fin s => [s]
      | Time.inf => [])

/-- The list `epoch0_times` accumulated by `inf_start_time` over all
demes of the graph, in deme order. -/
def epoch0_times (g : Graph) : List ℚ :=
  g.demes.flatMap demeEpoch0Times

/-- `utils.inf_start_time`: the value on the time axis used instead of
infinity.  `none` models the `ValueError` that Python's `max` raises on
an empty sequence. -/
noncomputable def inf_start_time (g : Graph) (inf_ratio : ℚ) (log_scale : Bool) :
    Option ℝ :=
  match seqMax (epoch0_times g) with
  | none => none
  | some oldest_noninf_time =>
    if oldest_noninf_time = 0 then
      -- All demes are root demes and have a constant size; 113 makes the
      -- infinity line extend slightly beyond matplotlib's last tick mark.
      some 113
    else if log_scale then
      some (Real.exp (Real.log oldest_noninf_time / (1 - (inf_ratio : ℝ))))
    else
      some ((oldest_noninf_time : ℝ) / (1 - (inf_ratio : ℝ)))

/-! ### The `size_history` renderer (`size_history.py`)

Matplotlib objects are abstracted: a colour map is one of the named
categorical palettes or a user-supplied one, a colour is the pair of the
palette and the index passed to it, and every call that draws onto the
axes is recorded as a `DrawCmd`.  Purely stylistic keyword arguments of
the source (`linestyle`, `linewidth`, `alpha`, `zorder`,
`solid_capstyle`) and the axis/spine styling performed after the main
loop are not modelled, except for the x-limits, legend, title and x-label
calls, which are kept to fix the order of post-loop operations. -/

/-- A matplotlib colour map: `tab10` and `tab20` are the categorical
palettes with 10 and 20 colour entries that `size_history` picks by
default; `custom` stands for a caller-supplied map. -/
inductive Cmap where
  | tab10
  | tab20
  | custom (name : String)
deriving DecidableEq

/-- The two `ValueError`s `size_history` can raise, plus the
`ValueError` that Python's `max` raises inside `inf_start_time` when the
graph has no demes.  `unsupportedSizeFunction` carries exactly the data
interpolated into the source's message (the epoch index `k` and the
`size_function` string; the deme is not part of the message). -/
inductive Err where
  | paletteExhausted
  | maxEmpty
  | unsupportedSizeFunction (epochIdx : ℕ) (size_function : String)
deriving DecidableEq

/-- The `cmap` defaulting logic of `size_history`: an explicit map is
used as given; otherwise `tab10` for at most 10 demes, `tab20` for at
most 20, and a `ValueError` beyond that. -/
def chooseCmap (cmap : Option Cmap) (numDemes : ℕ) : Except Err Cmap :=
  match cmap with
  | some c => Except.ok c
  | none =>
    if numDemes ≤ 10 then Except.ok Cmap.tab10
    else if numDemes ≤ 20 then Except.ok Cmap.tab20
    else Except.error Err.paletteExhausted

/-- The keyword options of `size_history` (the axes object and figure
geometry are not modelled). -/
structure Config where
  inf_ratio : ℚ
  inf_label : Bool
  invert_x : Bool
  num_exp_points : ℕ
  annotate_epochs : Bool
  cmap : Option Cmap
  log_x : Bool
  log_y : Bool
  title : Option String

/-- The default values of `size_history`'s keyword parameters. -/
def defaultConfig : Config :=
  { inf_ratio := 1/10, inf_label := false, invert_x := false,
    num_exp_points := 100, annotate_epochs := false, cmap := none,
    log_x := false, log_y := false, title := none }

/-- The start-time substitution at the top of the epoch loop:
`if np.isinf(start_time): start_time = inf_start_time`. -/
def substStartTime (ist : ℝ) : Time → ℝ
  | Time.fin t => (t : ℝ)
  | Time.inf => ist

/-- The end-time substitution of the epoch loop:
`if end_time == 0 and log_x: end_time = 1`. -/
def adjustEndTime (log_x : Bool) (t : ℚ) : ℚ :=
  if t = 0 ∧ log_x = true then 1 else t

/-- `np.linspace(a, b, num)`: `num` evenly spaced samples from `a` to
`b` inclusive. -/
noncomputable def linspace (a b : ℝ) (num : ℕ) : List ℝ :=
  if num = 1 then [a]
  else (List.range num).map (fun i : ℕ => a + (b - a) * (i : ℝ) / ((num : ℝ) - 1))

/-- The exponential interpolation of the epoch loop:
`r = np.log(end_size / start_size); y = start_size * np.exp(r * dt)`. -/
noncomputable def expSize (start_size end_size : ℚ) (dt : ℝ) : ℝ :=
  (start_size : ℝ) * Real.exp (Real.log ((end_size : ℝ) / (start_size : ℝ)) * dt)

/-- The coordinate arrays `(x, y)` plotted for one epoch, or the
`ValueError` raised for an unrecognized `size_function`.  `ist` is the
horizon value substituted for an infinite start time, `k` the epoch's
index within its deme. -/
noncomputable def epochCoords (ist : ℝ) (log_x : Bool) (num : ℕ) (k : ℕ)
    (e : Epoch) : Except Err (List ℝ × List ℝ) :=
  let start_time : ℝ := substStartTime ist e.start_time
  let end_time : ℝ := ((adjustEndTime log_x e.end_time : ℚ) : ℝ)
  if e.size_function = "constant" then
    Except.ok ([start_time, end_time], [(e.start_size : ℝ), (e.end_size : ℝ)])
  else if e.size_function = "exponential" then
    Except.ok (linspace start_time end_time num,
      (linspace 0 1 num).map (expSize e.start_size e.end_size))
  else
    Except.error (Err.unsupportedSizeFunction k e.size_function)

/-- The horizontal position of an epoch's index label
(`annotate_epochs` branch). -/
noncomputable def textX (log_x : Bool) (start_time end_time : ℝ) : ℝ :=
  if log_x then Real.exp ((Real.log start_time + Real.log end_time) / 2)
  else (start_time + end_time) / 2

/-- The vertical position of an epoch's index label
(`annotate_epochs` branch). -/
noncomputable def textY (log_y : Bool) (start_size end_size : ℚ) : ℝ :=
  if log_y then
    Real.exp ((Real.log (1 + (start_size : ℝ)) + Real.log (1 + (end_size : ℝ))) / 2)
  else ((start_size : ℝ) + (end_size : ℝ)) / 2

/-- One drawing call issued against the axes.  `line` and `epochDisc`
record the colour `cmap(j)` as the palette/index pair; `epochDisc` is
the dotted size-discontinuity connector between the epochs `epochIdx - 1`
and `epochIdx` of deme `demeIdx`, with its two raw endpoint times and
sizes as passed to `ax.plot`. -/
inductive DrawCmd where
  | line (colour : Cmap × ℕ) (demeIdx epochIdx : ℕ) (x y : List ℝ)
  | epochDisc (colour : Cmap × ℕ) (demeIdx epochIdx : ℕ)
      (t0 : ℚ) (t1 : Time) (s0 s1 : ℚ)
  | annotateEpoch (demeIdx epochIdx : ℕ) (tx ty : ℝ)
  | arrow (demeIdx : ℕ) (marker : String) (x : ℝ) (s : ℚ)
  | infLabel (demeIdx : ℕ) (x : ℝ) (s : ℚ)
  | ancestorDisc (colour : Cmap × ℕ) (demeIdx : ℕ) (t : Time)
      (ancSize : ℝ) (demeSize : ℚ)
  | legend (ncol : ℕ)
  | setTitle (title : String)
  | setXlim (lo hi : ℝ)
  | setXlabel (units : String)

/-- An epoch's `size_function` is one the renderer knows how to plot. -/
def supportedSizeFunction (e : Epoch) : Prop :=
  e.size_function = "constant" ∨ e.size_function = "exponential"

instance (e : Epoch) : Decidable (supportedSizeFunction e) := by
  unfold supportedSizeFunction
  infer_instance

/-- The command was issued while plotting a deme strictly before deme
`J`, or while plotting an epoch of deme `J` strictly before epoch `K`,
in the renderer's iteration order. -/
def originBefore (J K : ℕ) : DrawCmd → Prop
  | DrawCmd.line _ j k _ _ => j < J ∨ (j = J ∧ k < K)
  | DrawCmd.epochDisc _ j k _ _ _ _ => j < J ∨ (j = J ∧ k < K)
  | DrawCmd.annotateEpoch j k _ _ => j < J ∨ (j = J ∧ k < K)
  | DrawCmd.arrow j _ _ _ => j < J
  | DrawCmd.infLabel j _ _ => j < J
  | DrawCmd.ancestorDisc _ j _ _ _ => j < J
  | DrawCmd.legend _ => False
  | DrawCmd.setTitle _ => False
  | DrawCmd.setXlim _ _ => False
  | DrawCmd.setXlabel _ => False

/-- The command was issued while plotting deme `j` (any of the calls
made inside the main loop for that deme). -/
def fromDeme (j : ℕ) : DrawCmd → Prop
  | DrawCmd.line _ j' _ _ _ => j' = j
  | DrawCmd.epochDisc _ j' _ _ _ _ _ => j' = j
  | DrawCmd.annotateEpoch j' _ _ _ => j' = j
  | DrawCmd.arrow j' _ _ _ => j' = j
  | DrawCmd.infLabel j' _ _ => j' = j
  | DrawCmd.ancestorDisc _ j' _ _ _ => j' = j
  | DrawCmd.legend _ => False
  | DrawCmd.setTitle _ => False
  | DrawCmd.setXlim _ _ => False
  | DrawCmd.setXlabel _ => False

/-- The command was issued while plotting epoch `k` of deme `j` (one of
the three per-epoch calls of the inner loop). -/
def epochCmdAt (j k : ℕ) : DrawCmd → Prop
  | DrawCmd.line _ j' k' _ _ => j' = j ∧ k' = k
  | DrawCmd.epochDisc _ j' k' _ _ _ _ => j' = j ∧ k' = k
  | DrawCmd.annotateEpoch j' k' _ _ => j' = j ∧ k' = k
  | _ => False

/-- The command was issued by one of the per-deme calls made after a
deme's epoch loop (arrow, "inf" label, ancestor connector). -/
def demeLevelFrom (j : ℕ) : DrawCmd → Prop
  | DrawCmd.arrow j' _ _ _ => j' = j
  | DrawCmd.infLabel j' _ _ => j' = j
  | DrawCmd.ancestorDisc _ j' _ _ _ => j' = j
  | _ => False

/-- The dotted size-discontinuity connector drawn after epoch `k` of
deme `j` when the previous epoch's end size differs from this epoch's
start size (`k > 0 and deme.epochs[k-1].end_size != epoch.start_size`);
`prev` is the previous epoch (`none` when `k = 0`). -/
def discCmds (cm : Cmap) (j k : ℕ) (prev : Option Epoch) (e : Epoch) :
    List DrawCmd :=
  match prev with
  | some p =>
    if p.end_size ≠ e.start_size then
      [DrawCmd.epochDisc (cm, j) j k p.end_time e.start_time
        p.end_size e.start_size]
    else []
  | none => []

/-- The epoch-index annotation drawn for epoch `k` of deme `j` when
`annotate_epochs` is set. -/
noncomputable def annCmds (cfg : Config) (ist : ℝ) (j k : ℕ) (e : Epoch) :
    List DrawCmd :=
  if cfg.annotate_epochs then
    [DrawCmd.annotateEpoch j k
      (textX cfg.log_x (substStartTime ist e.start_time)
        ((adjustEndTime cfg.log_x e.end_time : ℚ) : ℝ))
      (textY cfg.log_y e.start_size e.end_size)]
  else []

/-- The epoch is active at time `t` (its time interval contains `t`). -/
def Epoch.activeAt (e : Epoch) (t : Time) : Bool :=
  match t with
  | Time.inf => e.start_time = Time.inf
  | Time.fin tq =>
    decide (e.end_time ≤ tq) &&
      (match e.start_time with
       | Time.inf => true
       | Time.fin s => decide (tq ≤ s))

/-- Modelled from the spec: the helper `utils.size_of_deme_at_time`,
called by `size_history` for ancestor discontinuities, is not under
`src/`.  Per the spec it "locates the ancestor's epoch active at the
given time and linearly/exponentially interpolates, depending on that
epoch's mode". -/
noncomputable def size_of_deme_at_time (d : Deme) (t : Time) : ℝ :=
  match d.epochs.find? (fun e => e.activeAt t) with
  | none => 0
  | some e =>
    match t, e.start_time with
    | Time.fin tq, Time.fin s =>
      let dt : ℝ := ((s : ℝ) - (tq : ℝ)) / ((s : ℝ) - (e.end_time : ℝ))
      if e.size_function = "exponential" then expSize e.start_size e.end_size dt
      else (e.start_size : ℝ) + ((e.end_size : ℝ) - (e.start_size : ℝ)) * dt
    | _, _ => (e.start_size : ℝ)

/-- `graph[ancestor_id]`: look a deme up by its identifier. -/
def Graph.lookup (g : Graph) (ident : String) : Option Deme :=
  g.demes.find? (fun d => d.id = ident)

/-- The drawing calls issued for deme `j` after its epoch loop finishes:
the infinity arrowhead (and its optional "inf" label) when the deme's
start time is infinite, then one dotted connector per ancestor whose
size at the branch point differs from the deme's starting size.  A deme
with no epochs, or an ancestor identifier with no deme, is skipped (the
`demes` library guarantees neither occurs; Python would raise). -/
noncomputable def demeCmds (cfg : Config) (cm : Cmap) (g : Graph) (ist : ℝ)
    (j : ℕ) (d : Deme) : List DrawCmd :=
  (match d.start_time, d.epochs.head? with
   | Time.inf, some e0 =>
     DrawCmd.arrow j (if cfg.invert_x then "<k" else ">k") ist e0.start_size ::
       (if cfg.inf_label then [DrawCmd.infLabel j ist e0.start_size] else [])
   | _, _ => []) ++
  d.ancestors.flatMap (fun aid =>
    match g.lookup aid with
    | none => []
    | some anc =>
      let ancN : ℝ := size_of_deme_at_time anc d.start_time
      let demeN : ℚ := ((d.epochs.head?).map Epoch.start_size).getD 0
      if ancN ≠ (demeN : ℝ) then
        [DrawCmd.ancestorDisc (cm, j) j d.start_time ancN demeN]
      else [])

/-- The inner loop of `size_history` over the epochs of deme `j`:
`prev` is the preceding epoch (for the size-discontinuity test
`k > 0 and deme.epochs[k-1].end_size != epoch.start_size`), `k` the
index of the first epoch of `es`.  Returns the drawing calls issued
before the loop finished or raised, and the raised error if any. -/
noncomputable def renderEpochs (cfg : Config) (cm : Cmap) (ist : ℝ) (j : ℕ) :
    Option Epoch → ℕ → List Epoch → List DrawCmd × Option Err
  | _, _, [] => ([], none)
  | prev, k, e :: rest =>
    match epochCoords ist cfg.log_x cfg.num_exp_points k e with
    | Except.error err => ([], some err)
    | Except.ok xy =>
      (DrawCmd.line (cm, j) j k xy.1 xy.2 ::
        (discCmds cm j k prev e ++ annCmds cfg ist j k e ++
          (renderEpochs cfg cm ist j (some e) (k + 1) rest).1),
       (renderEpochs cfg cm ist j (some e) (k + 1) rest).2)

/-- Everything `size_history` draws for deme `j`: the epoch loop, then
(only when that loop did not raise) the per-deme arrow and ancestor
connectors. -/
noncomputable def renderDeme (cfg : Config) (cm : Cmap) (g : Graph) (ist : ℝ)
    (j : ℕ) (d : Deme) : List DrawCmd × Option Err :=
  match (renderEpochs cfg cm ist j none 0 d.epochs).2 with
  | some e => ((renderEpochs cfg cm ist j none 0 d.epochs).1, some e)
  | none => ((renderEpochs cfg cm ist j none 0 d.epochs).1 ++
      demeCmds cfg cm g ist j d, none)

/-- The main loop of `size_history` over `enumerate(graph.demes)`,
starting at deme index `j`. -/
noncomputable def renderDemes (cfg : Config) (cm : Cmap) (g : Graph) (ist : ℝ) :
    ℕ → List Deme → List DrawCmd × Option Err
  | _, [] => ([], none)
  | j, d :: rest =>
    match (renderDeme cfg cm g ist j d).2 with
    | some e => ((renderDeme cfg cm g ist j d).1, some e)
    | none => ((renderDeme cfg cm g ist j d).1 ++
        (renderDemes cfg cm g ist (j + 1) rest).1,
      (renderDemes cfg cm g ist (j + 1) rest).2)

/-- `size_history`: choose the colour map, compute the horizon value,
run the main loop, then (when nothing raised) add the legend (for more
than one deme), the title, the x-limits `[0 or 1, horizon]` and the
x-label.  The first component is every drawing call issued before the
function returned or raised; the second is the raised `ValueError`. -/
noncomputable def size_history (g : Graph) (cfg : Config) :
    List DrawCmd × Option Err :=
  match chooseCmap cfg.cmap g.demes.length with
  | Except.error e => ([], some e)
  | Except.ok cm =>
    match inf_start_time g cfg.inf_ratio cfg.log_x with
    | none => ([], some Err.maxEmpty)
    | some ist =>
      match (renderDemes cfg cm g ist 0 g.demes).2 with
      | some e => ((renderDemes cfg cm g ist 0 g.demes).1, some e)
      | none =>
        ((renderDemes cfg cm g ist 0 g.demes).1 ++
          (if 1 < g.demes.length then [DrawCmd.legend (g.demes.length / 2)]
           else []) ++
          (match cfg.title with
           | some t => [DrawCmd.setTitle t]
           | none => []) ++
          [DrawCmd.setXlim (if cfg.log_x then 1 else 0) ist,
           DrawCmd.setXlabel g.time_units], none)

/-! ### Concrete inputs used by witnesses and counterexamples -/

/-- A constant-size epoch of a root deme ending at time 0. -/
def rootEpoch0 : Epoch :=
  { start_time := Time.inf, end_time := 0, start_size := 100,
    end_size := 100, size_function := "constant" }

/-- A single root deme of constant size with `end_time` 0. -/
def demoRootDeme : Deme :=
  { id := "a", start_time := Time.inf, ancestors := [], epochs := [rootEpoch0] }

/-- A graph holding just `demoRootDeme`: every collected first-epoch
time is 0. -/
def demoRootGraph : Graph :=
  { demes := [demoRootDeme], time_units := "generations" }

/-- A constant-size root epoch ending at time 1/2. -/
def halfEpoch : Epoch :=
  { start_time := Time.inf, end_time := 1/2, start_size := 100,
    end_size := 100, size_function := "constant" }

/-- A one-deme graph whose maximum finite first-epoch time is 1/2. -/
def halfTimeGraph : Graph :=
  { demes := [{ id := "a", start_time := Time.inf, ancestors := [],
                epochs := [halfEpoch] }],
    time_units := "generations" }

/-- A constant-size root epoch ending at time 2. -/
def twoEpoch : Epoch :=
  { start_time := Time.inf, end_time := 2, start_size := 100,
    end_size := 100, size_function := "constant" }

/-- A one-deme graph whose maximum finite first-epoch time is 2. -/
def twoTimeGraph : Graph :=
  { demes := [{ id := "a", start_time := Time.inf, ancestors := [],
                epochs := [twoEpoch] }],
    time_units := "generations" }

/-- The older epoch of `stepGraph`'s deme: size 100 until time 9. -/
def stepEpochOld : Epoch :=
  { start_time := Time.inf, end_time := 9, start_size := 100,
    end_size := 100, size_function := "constant" }

/-- The recent epoch of `stepGraph`'s deme: size 200 from time 9 on. -/
def stepEpochNew : Epoch :=
  { start_time := Time.fin 9, end_time := 0, start_size := 200,
    end_size := 200, size_function := "constant" }

/-- A root deme with two constant epochs whose boundary sizes differ
(100 then 200). -/
def stepDeme : Deme :=
  { id := "a", start_time := Time.inf, ancestors := [],
    epochs := [stepEpochOld, stepEpochNew] }

/-- A one-deme graph holding `stepDeme`. -/
def stepGraph : Graph :=
  { demes := [stepDeme], time_units := "generations" }

/-- An epoch declaring the unsupported `size_function` "logistic". -/
def logisticEpoch : Epoch :=
  { start_time := Time.inf, end_time := 9, start_size := 50,
    end_size := 50, size_function := "logistic" }

/-- A plottable root deme holding `stepEpochOld`. -/
def demeA : Deme :=
  { id := "a", start_time := Time.inf, ancestors := [], epochs := [stepEpochOld] }

/-- A root deme whose only epoch is the unsupported `logisticEpoch`. -/
def demeB : Deme :=
  { id := "b", start_time := Time.inf, ancestors := [], epochs := [logisticEpoch] }

/-- A two-deme graph whose second deme's only epoch declares the
unsupported `size_function` "logistic"; the first deme is plottable. -/
def logisticGraph : Graph :=
  { demes := [demeA, demeB], time_units := "generations" }

/-- A graph with 21 identical root demes and no explicit colour map. -/
def manyDemeGraph : Graph :=
  { demes := List.replicate 21 demoRootDeme, time_units := "generations" }

/-- A constant-mode epoch used by witnesses. -/
def constEpoch : Epoch :=
  { start_time := Time.fin 7, end_time := 3, start_size := 5,
    end_size := 5, size_function := "constant" }

/-- An exponential-mode epoch with positive sizes used by witnesses. -/
def expEpoch : Epoch :=
  { start_time := Time.fin 7, end_time := 3, start_size := 5,
    end_size := 20, size_function := "exponential" }

/-- An exponential-mode epoch whose start size is zero. -/
def zeroStartExpEpoch : Epoch :=
  { start_time := Time.fin 7, end_time := 3, start_size := 0,
    end_size := 20, size_function := "exponential" }

/-- A constant-mode epoch ending at time 0 (the present). -/
def presentEpoch : Epoch :=
  { start_time := Time.fin 7, end_time := 0, start_size := 5,
    end_size := 5, size_function := "constant" }

/-! ### Basic lemmas about `seqMax` and `epoch0_times` -/

lemma foldl_max_le_self (as : List ℚ) : ∀ a : ℚ, a ≤ as.foldl max a := by
  induction as with
  | nil => intro a; simp
  | cons b bs ih =>
    intro a
    calc a ≤ max a b := le_max_left a b
    _ ≤ bs.foldl max (max a b) := ih (max a b)

lemma foldl_max_le (as : List ℚ) :
    ∀ a : ℚ, ∀ t ∈ as, t ≤ as.foldl max a := by
  induction as with
  | nil => intro a t ht; simp at ht
  | cons b bs ih =>
    intro a t ht
    rcases List.mem_cons.mp ht with h | h
    · subst h
      calc t ≤ max a t := le_max_right a t
      _ ≤ bs.foldl max (max a t) := foldl_max_le_self bs (max a t)
    · exact ih (max a b) t h

lemma foldl_max_mem (as : List ℚ) : ∀ a : ℚ, as.foldl max a ∈ a :: as := by
  induction as with
  | nil => intro a; simp
  | cons b bs ih =>
    intro a
    have h := ih (max a b)
    rcases List.mem_cons.mp h with h | h
    · rcases max_choice a b with hm | hm <;> rw [List.foldl_cons, h, hm]
      · exact List.mem_cons_self _ _
      · exact List.mem_cons_of_mem _ (List.mem_cons_self _ _)
    · exact List.mem_cons_of_mem _ (List.mem_cons_of_mem _ h)

lemma seqMax_spec {l : List ℚ} (h : l ≠ []) :
    ∃ T, seqMax l = some T ∧ T ∈ l ∧ ∀ t ∈ l, t ≤ T := by
  match l with
  | [] => exact absurd rfl h
  | a :: as =>
    refine ⟨as.foldl max a, rfl, foldl_max_mem as a, ?_⟩
    intro t ht
    rcases List.mem_cons.mp ht with h | h
    · subst h; exact foldl_max_le_self as t
    · exact foldl_max_le as a t h

lemma mem_demeEpoch0Times {d : Deme} {t : ℚ} :
    t ∈ demeEpoch0Times d ↔
      ∃ e0, d.epochs.head? = some e0 ∧
        (t = e0.end_time ∨ e0.start_time = Time.fin t) := by
  unfold demeEpoch0Times
  match h : d.epochs with
  | [] => simp
  | e :: rest =>
    cases hs : e.start_time with
    | fin s =>
      simp only [hs, List.head?_cons, List.mem_cons, List.mem_singleton,
        Option.some.injEq]
      constructor
      · rintro (h | h | h)
        · exact ⟨e, rfl, Or.inl h⟩
        · exact ⟨e, rfl, Or.inr (by rw [hs, h])⟩
        · simp at h
      · rintro ⟨e0, he0, h | h⟩
        · subst he0; exact Or.inl h
        · subst he0; rw [hs] at h
          injection h with h
          exact Or.inr (Or.inl h.symm)
    | inf =>
      simp only [hs, List.head?_cons, List.mem_cons, List.not_mem_nil, or_false,
        Option.some.injEq]
      constructor
      · intro h; exact ⟨e, rfl, Or.inl h⟩
      · rintro ⟨e0, he0, h | h⟩
        · subst he0; exact h
        · subst he0; rw [hs] at h; cases h

lemma mem_epoch0_times {g : Graph} {t : ℚ} :
    t ∈ epoch0_times g ↔
      ∃ d ∈ g.demes, ∃ e0, d.epochs.head? = some e0 ∧
        (t = e0.end_time ∨ e0.start_time = Time.fin t) := by
  unfold epoch0_times
  rw [List.mem_flatMap]
  constructor
  · rintro ⟨d, hd, ht⟩
    exact ⟨d, hd, mem_demeEpoch0Times.mp ht⟩
  · rintro ⟨d, hd, he⟩
    exact ⟨d, hd, mem_demeEpoch0Times.mpr he⟩

lemma epoch0_times_ne_nil {g : Graph} (h1 : g.demes ≠ [])
    (h2 : ∀ d ∈ g.demes, d.epochs ≠ []) : epoch0_times g ≠ [] := by
  match hg : g.demes with
  | [] => exact absurd hg h1
  | d :: rest =>
    have hd : d ∈ g.demes := by rw [hg]; exact List.mem_cons_self _ _
    have he := h2 d hd
    match hes : d.epochs with
    | [] => exact absurd hes he
    | e :: erest =>
      intro hcon
      have : e.end_time ∈ epoch0_times g := by
        rw [mem_epoch0_times]
        exact ⟨d, hd, e, by rw [hes]; rfl, Or.inl rfl⟩
      rw [hcon] at this
      exact List.not_mem_nil _ this

lemma inf_start_time_eq {g : Graph} {T : ℚ} (r : ℚ) (ls : Bool)
    (hmax : seqMax (epoch0_times g) = some T) :
    inf_start_time g r ls = some (
      if T = 0 then (113 : ℝ)
      else if ls then Real.exp (Real.log (T : ℝ) / (1 - (r : ℝ)))
      else (T : ℝ) / (1 - (r : ℝ))) := by
  unfold inf_start_time
  rw [hmax]
  by_cases h0 : T = 0
  · simp [h0]
  · by_cases hls : ls = true
    · simp [h0, hls]
    · simp [h0, hls]

lemma inf_start_time_linear {g : Graph} {T : ℚ} (r : ℚ)
    (hmax : seqMax (epoch0_times g) = some T) (h0 : T ≠ 0) :
    inf_start_time g r false = some ((T : ℝ) / (1 - (r : ℝ))) := by
  rw [inf_start_time_eq r false hmax]
  simp [h0]

lemma inf_start_time_logscale {g : Graph} {T : ℚ} (r : ℚ)
    (hmax : seqMax (epoch0_times g) = some T) (h0 : T ≠ 0) :
    inf_start_time g r true = some (Real.exp (Real.log (T : ℝ) / (1 - (r : ℝ)))) := by
  rw [inf_start_time_eq r true hmax]
  simp [h0]

/-- C1: for every graph with at least one deme (each deme having at
least one epoch, as the `demes` library guarantees), `inf_start_time`
takes `T` to be the maximum of the collection holding every deme's
first-epoch end time together with each finite first-epoch start time,
and returns `113` if `T = 0`, `T / (1 - inf_ratio)` if `T ≠ 0` and
`log_scale` is false, and `exp (log T / (1 - inf_ratio))` if `T ≠ 0`
and `log_scale` is true. -/
theorem inf_start_time_spec (g : Graph) (r : ℚ) (ls : Bool)
    (h1 : g.demes ≠ []) (h2 : ∀ d ∈ g.demes, d.epochs ≠ []) :
    ∃ T : ℚ,
      (T ∈ epoch0_times g ∧ ∀ t ∈ epoch0_times g, t ≤ T) ∧
      (∀ t : ℚ, t ∈ epoch0_times g ↔
        ∃ d ∈ g.demes, ∃ e0, d.epochs.head? = some e0 ∧
          (t = e0.end_time ∨ e0.start_time = Time.fin t)) ∧
      inf_start_time g r ls = some (
        if T = 0 then (113 : ℝ)
        else if ls then Real.exp (Real.log (T : ℝ) / (1 - (r : ℝ)))
        else (T : ℝ) / (1 - (r : ℝ))) := by
  obtain ⟨T, hmax, hmem, hub⟩ := seqMax_spec (epoch0_times_ne_nil h1 h2)
  exact ⟨T, ⟨hmem, hub⟩, fun t => mem_epoch0_times, inf_start_time_eq r ls hmax⟩

/-- Witness for C1 at the one-deme graph `demoRootGraph` with ratio
1/10 on a linear axis. -/
theorem inf_start_time_spec_witness :
    demoRootGraph.demes ≠ [] ∧
    (∀ d ∈ demoRootGraph.demes, d.epochs ≠ []) ∧
    (∃ T : ℚ,
      (T ∈ epoch0_times demoRootGraph ∧ ∀ t ∈ epoch0_times demoRootGraph, t ≤ T) ∧
      (∀ t : ℚ, t ∈ epoch0_times demoRootGraph ↔
        ∃ d ∈ demoRootGraph.demes, ∃ e0, d.epochs.head? = some e0 ∧
          (t = e0.end_time ∨ e0.start_time = Time.fin t)) ∧
      inf_start_time demoRootGraph (1/10) false = some (
        if T = 0 then (113 : ℝ)
        else if false then Real.exp (Real.log (T : ℝ) / (1 - ((1/10 : ℚ) : ℝ)))
        else (T : ℝ) / (1 - ((1/10 : ℚ) : ℝ)))) :=
  ⟨by decide, by decide,
    inf_start_time_spec demoRootGraph (1/10) false (by decide) (by decide)⟩

/-- C10: `inf_start_time` fails on the empty graph (Python's `max` of
an empty sequence raises `ValueError`), and returns a value for every
graph with at least one deme (whose demes each carry at least one
epoch, as the `demes` library guarantees). -/
theorem inf_start_time_domain (r : ℚ) (ls : Bool) (g : Graph)
    (h1 : g.demes ≠ []) (h2 : ∀ d ∈ g.demes, d.epochs ≠ []) :
    inf_start_time { demes := [], time_units := "generations" } r ls = none ∧
    ∃ v, inf_start_time g r ls = some v := by
  refine ⟨rfl, ?_⟩
  obtain ⟨T, hmax, _, _⟩ := seqMax_spec (epoch0_times_ne_nil h1 h2)
  exact ⟨_, inf_start_time_eq r ls hmax⟩

/-- Witness for C10 at `demoRootGraph` with ratio 1/10 on a log axis. -/
theorem inf_start_time_domain_witness :
    demoRootGraph.demes ≠ [] ∧
    (∀ d ∈ demoRootGraph.demes, d.epochs ≠ []) ∧
    (inf_start_time { demes := [], time_units := "generations" } (1/10) true = none ∧
      ∃ v, inf_start_time demoRootGraph (1/10) true = some v) :=
  ⟨by decide, by decide,
    inf_start_time_domain (1/10) true demoRootGraph (by decide) (by decide)⟩

/-! ### Outward scaling of the horizon (claim C2) -/

lemma div_one_sub_gt {T r : ℝ} (hT : 0 < T) (h0 : 0 < r) (h1 : r < 1) :
    T < T / (1 - r) := by
  have h1r : 0 < 1 - r := by linarith
  rw [lt_div_iff₀ h1r]
  nlinarith

lemma div_one_sub_lt {T r r' : ℝ} (hT : 0 < T) (hrr : r < r') (h1 : r' < 1) :
    T / (1 - r) < T / (1 - r') := by
  have h2 : 0 < 1 - r' := by linarith
  have h3 : 1 - r' < 1 - r := by linarith
  exact div_lt_div_of_pos_left hT h2 h3

lemma exp_log_div_gt {T r : ℝ} (hT : 1 < T) (h0 : 0 < r) (h1 : r < 1) :
    T < Real.exp (Real.log T / (1 - r)) := by
  have hTpos : 0 < T := by linarith
  have hlog : 0 < Real.log T := Real.log_pos hT
  have h1r : 0 < 1 - r := by linarith
  have hlt : Real.log T < Real.log T / (1 - r) := by
    rw [lt_div_iff₀ h1r]
    nlinarith
  calc T = Real.exp (Real.log T) := (Real.exp_log hTpos).symm
  _ < _ := Real.exp_lt_exp.mpr hlt

/-- C2 (amended): when the maximum finite first-epoch time `T` is
positive and `0 < r < r' < 1`, the linear-mode horizon exceeds `T` and
grows as the ratio grows; the log-mode horizon does the same provided
`T > 1`.  (For `T ≤ 1` the log-mode value is at most `T`: see the
counterexample `inf_start_time_log_not_gt`.) -/
theorem inf_start_time_outward (g : Graph) (T r r' : ℚ)
    (hmax : seqMax (epoch0_times g) = some T) (hT : 0 < T)
    (hr0 : 0 < r) (hrr' : r < r') (hr'1 : r' < 1) :
    (∃ v v' : ℝ, inf_start_time g r false = some v ∧
        inf_start_time g r' false = some v' ∧ (T : ℝ) < v ∧ v < v') ∧
    (1 < T →
      ∃ w w' : ℝ, inf_start_time g r true = some w ∧
        inf_start_time g r' true = some w' ∧ (T : ℝ) < w ∧ w < w') := by
  have hT0 : T ≠ 0 := ne_of_gt hT
  have hTR : (0 : ℝ) < (T : ℝ) := by exact_mod_cast hT
  have hr0R : (0 : ℝ) < (r : ℝ) := by exact_mod_cast hr0
  have hrrR : (r : ℝ) < (r' : ℝ) := by exact_mod_cast hrr'
  have hr'1R : (r' : ℝ) < 1 := by exact_mod_cast hr'1
  have hr1R : (r : ℝ) < 1 := hrrR.trans hr'1R
  constructor
  · exact ⟨_, _, inf_start_time_linear r hmax hT0,
      inf_start_time_linear r' hmax hT0,
      div_one_sub_gt hTR hr0R hr1R, div_one_sub_lt hTR hrrR hr'1R⟩
  · intro hT1
    have hT1R : (1 : ℝ) < (T : ℝ) := by exact_mod_cast hT1
    exact ⟨_, _, inf_start_time_logscale r hmax hT0,
      inf_start_time_logscale r' hmax hT0,
      exp_log_div_gt hT1R hr0R hr1R,
      Real.exp_lt_exp.mpr (div_one_sub_lt (Real.log_pos hT1R) hrrR hr'1R)⟩

/-- Witness for the amended C2 at `twoTimeGraph` (maximum time 2) with
ratios 1/4 < 1/2. -/
theorem inf_start_time_outward_witness :
    seqMax (epoch0_times twoTimeGraph) = some 2 ∧
    ((∃ v v' : ℝ, inf_start_time twoTimeGraph (1/4) false = some v ∧
        inf_start_time twoTimeGraph (1/2) false = some v' ∧
        ((2 : ℚ) : ℝ) < v ∧ v < v') ∧
      (1 < (2 : ℚ) →
        ∃ w w' : ℝ, inf_start_time twoTimeGraph (1/4) true = some w ∧
          inf_start_time twoTimeGraph (1/2) true = some w' ∧
          ((2 : ℚ) : ℝ) < w ∧ w < w')) :=
  ⟨by decide,
    inf_start_time_outward twoTimeGraph 2 (1/4) (1/2) (by decide) (by norm_num)
      (by norm_num) (by norm_num) (by norm_num)⟩

/-- C2 counterexample: `halfTimeGraph` has maximum finite first-epoch
time `T = 1/2 > 0`, and with ratio `r = 1/2 ∈ (0,1)` the log-mode
horizon is `exp (log (1/2) / (1 - 1/2)) = 1/4`, which is smaller than
`T` — refuting "the value returned is strictly greater than T in both
linear and logarithmic mode". -/
theorem inf_start_time_log_not_gt :
    inf_start_time halfTimeGraph (1/2) true = some ((1 : ℝ) / 4) ∧
    (1 : ℝ) / 4 < (1 : ℝ) / 2 := by
  constructor
  · have hmax : seqMax (epoch0_times halfTimeGraph) = some (1/2) := by
      simp [seqMax, epoch0_times, demeEpoch0Times, halfTimeGraph, halfEpoch]
    rw [inf_start_time_logscale (1/2) hmax (by norm_num)]
    have hc : (((1 : ℚ)/2 : ℚ) : ℝ) = (1 : ℝ)/2 := by norm_num
    rw [hc, show (1 : ℝ) - (1 : ℝ)/2 = (1 : ℝ)/2 by norm_num]
    rw [show Real.log ((1 : ℝ)/2) / ((1 : ℝ)/2) =
      Real.log ((1 : ℝ)/2) + Real.log ((1 : ℝ)/2) by ring]
    rw [Real.exp_add, Real.exp_log (by norm_num : (0 : ℝ) < 1/2)]
    norm_num
  · norm_num

/-! ### Per-epoch coordinate computation (claims C6-C9) -/

lemma epochCoords_constant {e : Epoch} (ist : ℝ) (lx : Bool) (num k : ℕ)
    (h : e.size_function = "constant") :
    epochCoords ist lx num k e =
      Except.ok ([substStartTime ist e.start_time,
          ((adjustEndTime lx e.end_time : ℚ) : ℝ)],
        [(e.start_size : ℝ), (e.end_size : ℝ)]) := by
  simp [epochCoords, h]

lemma epochCoords_exponential {e : Epoch} (ist : ℝ) (lx : Bool) (num k : ℕ)
    (h : e.size_function = "exponential") :
    epochCoords ist lx num k e =
      Except.ok (linspace (substStartTime ist e.start_time)
          ((adjustEndTime lx e.end_time : ℚ) : ℝ) num,
        (linspace 0 1 num).map (expSize e.start_size e.end_size)) := by
  simp [epochCoords, h]

lemma epochCoords_unsupported {e : Epoch} (ist : ℝ) (lx : Bool) (num k : ℕ)
    (h : ¬ supportedSizeFunction e) :
    epochCoords ist lx num k e =
      Except.error (Err.unsupportedSizeFunction k e.size_function) := by
  unfold supportedSizeFunction at h
  push_neg at h
  simp [epochCoords, h.1, h.2]

lemma epochCoords_ok {e : Epoch} (ist : ℝ) (lx : Bool) (num k : ℕ)
    (h : supportedSizeFunction e) :
    ∃ xy, epochCoords ist lx num k e = Except.ok xy := by
  rcases h with h | h
  · exact ⟨_, epochCoords_constant ist lx num k h⟩
  · exact ⟨_, epochCoords_exponential ist lx num k h⟩

lemma linspace_length (a b : ℝ) (num : ℕ) : (linspace a b num).length = num := by
  unfold linspace
  by_cases h : num = 1
  · rw [if_pos h, h]
    rfl
  · rw [if_neg h, List.length_map, List.length_range]

lemma linspace_getElem? (a b : ℝ) {num : ℕ} (h : num ≠ 1) {i : ℕ}
    (hi : i < num) :
    (linspace a b num)[i]? = some (a + (b - a) * i / ((num : ℝ) - 1)) := by
  unfold linspace
  rw [if_neg h, List.getElem?_map, List.getElem?_range hi, Option.map_some']

/-- C6: the exponential interpolation
`y(dt) = start_size * exp (log (end_size / start_size) * dt)` used by
`size_history` is exact at its endpoints when both sizes are positive:
it yields the start size at normalized progress 0 and the end size at
progress 1. -/
theorem expSize_endpoints (s t : ℚ) (hs : 0 < s) (ht : 0 < t) :
    expSize s t 0 = (s : ℝ) ∧ expSize s t 1 = (t : ℝ) := by
  have hsR : (0 : ℝ) < (s : ℝ) := by exact_mod_cast hs
  have htR : (0 : ℝ) < (t : ℝ) := by exact_mod_cast ht
  constructor
  · unfold expSize
    rw [mul_zero, Real.exp_zero, mul_one]
  · unfold expSize
    rw [mul_one, Real.exp_log (div_pos htR hsR)]
    field_simp

/-- Witness for C6 at the concrete sizes 5 and 20. -/
theorem expSize_endpoints_witness :
    (0 : ℚ) < 5 ∧ (0 : ℚ) < 20 ∧
    (expSize 5 20 0 = ((5 : ℚ) : ℝ) ∧ expSize 5 20 1 = ((20 : ℚ) : ℝ)) :=
  ⟨by norm_num, by norm_num, expSize_endpoints 5 20 (by norm_num) (by norm_num)⟩

/-- C9: the exponential branch of the coordinate computation applies no
positivity guard — it succeeds for any sizes — yet its result is only
meaningful for strictly positive sizes: when exactly one of the two
sizes is zero the interpolated curve fails to reach the epoch's end
size at normalized progress 1 (in float arithmetic the curve is
`nan`/`-inf`-valued there, since `log (end/start)` divides by
`start_size` and takes the log of the ratio). -/
theorem expSize_needs_positive_sizes (e : Epoch) (ist : ℝ) (lx : Bool)
    (num k : ℕ) (hexp : e.size_function = "exponential")
    (hz : (e.start_size = 0 ∧ e.end_size ≠ 0) ∨
      (e.end_size = 0 ∧ e.start_size ≠ 0)) :
    (∃ xy, epochCoords ist lx num k e = Except.ok xy) ∧
    expSize e.start_size e.end_size 1 ≠ (e.end_size : ℝ) := by
  refine ⟨⟨_, epochCoords_exponential ist lx num k hexp⟩, ?_⟩
  unfold expSize
  rw [mul_one]
  rcases hz with ⟨h0, hne⟩ | ⟨h0, hne⟩
  · rw [h0, Rat.cast_zero, zero_mul]
    exact (Rat.cast_ne_zero.mpr hne).symm
  · rw [h0, Rat.cast_zero, zero_div, Real.log_zero, Real.exp_zero, mul_one]
    exact Rat.cast_ne_zero.mpr hne

/-- Witness for C9 at an exponential epoch whose start size is 0 and
end size 20. -/
theorem expSize_needs_positive_sizes_witness :
    zeroStartExpEpoch.size_function = "exponential" ∧
    ((zeroStartExpEpoch.start_size = 0 ∧ zeroStartExpEpoch.end_size ≠ 0) ∨
      (zeroStartExpEpoch.end_size = 0 ∧ zeroStartExpEpoch.start_size ≠ 0)) ∧
    ((∃ xy, epochCoords 113 false 100 0 zeroStartExpEpoch = Except.ok xy) ∧
      expSize zeroStartExpEpoch.start_size zeroStartExpEpoch.end_size 1 ≠
        (zeroStartExpEpoch.end_size : ℝ)) :=
  ⟨rfl, Or.inl ⟨rfl, by norm_num [zeroStartExpEpoch]⟩,
    expSize_needs_positive_sizes zeroStartExpEpoch 113 false 100 0 rfl
      (Or.inl ⟨rfl, by norm_num [zeroStartExpEpoch]⟩)⟩

/-- C7: a constant-mode epoch is plotted with exactly the two
coordinate pairs (start time, start size) and (end time, end size)
(with the horizon substituted for an infinite start time); an
exponential-mode epoch is plotted with exactly `num_exp_points`
coordinate pairs — 100 by default — whose times are evenly spaced
across the epoch's (substituted) time span. -/
theorem size_history_epoch_point_counts (ist : ℝ) (lx : Bool) (num k1 k2 : ℕ)
    (e1 e2 : Epoch) (h1 : e1.size_function = "constant")
    (h2 : e2.size_function = "exponential") :
    defaultConfig.num_exp_points = 100 ∧
    epochCoords ist lx num k1 e1 =
      Except.ok ([substStartTime ist e1.start_time,
          ((adjustEndTime lx e1.end_time : ℚ) : ℝ)],
        [(e1.start_size : ℝ), (e1.end_size : ℝ)]) ∧
    (∃ x y, epochCoords ist lx num k2 e2 = Except.ok (x, y) ∧
      x.length = num ∧ y.length = num ∧
      (num ≠ 1 → ∀ i, i < num →
        x[i]? = some (substStartTime ist e2.start_time +
          (((adjustEndTime lx e2.end_time : ℚ) : ℝ) -
              substStartTime ist e2.start_time) * i / ((num : ℝ) - 1)))) := by
  refine ⟨rfl, epochCoords_constant ist lx num k1 h1, ?_⟩
  refine ⟨_, _, epochCoords_exponential ist lx num k2 h2, ?_, ?_, ?_⟩
  · exact linspace_length _ _ _
  · rw [List.length_map, linspace_length]
  · intro hnum i hi
    exact linspace_getElem? _ _ hnum hi

/-- Witness for C7 at a constant and an exponential epoch with
`num = 4` sample points. -/
theorem size_history_epoch_point_counts_witness :
    constEpoch.size_function = "constant" ∧
    expEpoch.size_function = "exponential" ∧
    (defaultConfig.num_exp_points = 100 ∧
      epochCoords 113 false 4 0 constEpoch =
        Except.ok ([substStartTime 113 constEpoch.start_time,
            ((adjustEndTime false constEpoch.end_time : ℚ) : ℝ)],
          [(constEpoch.start_size : ℝ), (constEpoch.end_size : ℝ)]) ∧
      (∃ x y, epochCoords 113 false 4 0 expEpoch = Except.ok (x, y) ∧
        x.length = 4 ∧ y.length = 4 ∧
        ((4 : ℕ) ≠ 1 → ∀ i : ℕ, i < 4 →
          x[i]? = some (substStartTime 113 expEpoch.start_time +
            (((adjustEndTime false expEpoch.end_time : ℚ) : ℝ) -
                substStartTime 113 expEpoch.start_time) * i /
              (((4 : ℕ) : ℝ) - 1))))) :=
  ⟨rfl, rfl, size_history_epoch_point_counts 113 false 4 0 0 constEpoch expEpoch
    rfl rfl⟩

/-- C8: when a log-scaled time axis is requested and an epoch's end
time is exactly 0, the value 1 is substituted before the plotted
coordinates are computed; when the axis is linear or the end time is
nonzero the end time passes through unchanged, and the (possibly
substituted) value is what appears in the epoch's coordinates. -/
theorem epoch_end_time_subst (lx : Bool) (t : ℚ) (e : Epoch) (ist : ℝ)
    (num k : ℕ) (hc : e.size_function = "constant") :
    adjustEndTime true 0 = 1 ∧
    (t ≠ 0 → adjustEndTime lx t = t) ∧
    adjustEndTime false t = t ∧
    epochCoords ist lx num k e =
      Except.ok ([substStartTime ist e.start_time,
          ((adjustEndTime lx e.end_time : ℚ) : ℝ)],
        [(e.start_size : ℝ), (e.end_size : ℝ)]) := by
  refine ⟨rfl, ?_, ?_, epochCoords_constant ist lx num k hc⟩
  · intro h
    unfold adjustEndTime
    simp [h]
  · unfold adjustEndTime
    simp

/-- Witness for C8 at a constant epoch ending at the present on a
log-scaled axis. -/
theorem epoch_end_time_subst_witness :
    presentEpoch.size_function = "constant" ∧
    (adjustEndTime true 0 = 1 ∧
      ((9 : ℚ) ≠ 0 → adjustEndTime true 9 = 9) ∧
      adjustEndTime false (9 : ℚ) = 9 ∧
      epochCoords 113 true 100 0 presentEpoch =
        Except.ok ([substStartTime 113 presentEpoch.start_time,
            ((adjustEndTime true presentEpoch.end_time : ℚ) : ℝ)],
          [(presentEpoch.start_size : ℝ), (presentEpoch.end_size : ℝ)])) :=
  ⟨rfl, epoch_end_time_subst true 9 presentEpoch 113 100 0 rfl⟩

/-! ### Colour-map selection (claim C4) -/

/-- C4: with no explicit colour map, `size_history` uses the 10-entry
`tab10` palette for at most 10 demes and the 20-entry `tab20` palette
for 11 to 20 demes, and for more than 20 demes it raises a
`ValueError` before issuing any drawing call. -/
theorem size_history_cmap_selection (g : Graph) (cfg : Config)
    (h : cfg.cmap = none) :
    (g.demes.length ≤ 10 →
      chooseCmap cfg.cmap g.demes.length = Except.ok Cmap.tab10) ∧
    (10 < g.demes.length → g.demes.length ≤ 20 →
      chooseCmap cfg.cmap g.demes.length = Except.ok Cmap.tab20) ∧
    (20 < g.demes.length →
      size_history g cfg = ([], some Err.paletteExhausted)) := by
  refine ⟨?_, ?_, ?_⟩
  · intro h10
    unfold chooseCmap
    rw [h]
    simp [h10]
  · intro h10 h20
    unfold chooseCmap
    rw [h]
    simp [Nat.not_le.mpr h10, h20]
  · intro h20
    have hcm : chooseCmap cfg.cmap g.demes.length =
        Except.error Err.paletteExhausted := by
      unfold chooseCmap
      rw [h]
      simp [Nat.not_le.mpr (lt_trans (show (10 : ℕ) < 20 by norm_num) h20),
        Nat.not_le.mpr h20]
    unfold size_history
    rw [hcm]

/-- Witness for C4 at the 21-deme graph with the default options. -/
theorem size_history_cmap_selection_witness :
    defaultConfig.cmap = none ∧
    ((manyDemeGraph.demes.length ≤ 10 →
      chooseCmap defaultConfig.cmap manyDemeGraph.demes.length =
        Except.ok Cmap.tab10) ∧
    (10 < manyDemeGraph.demes.length → manyDemeGraph.demes.length ≤ 20 →
      chooseCmap defaultConfig.cmap manyDemeGraph.demes.length =
        Except.ok Cmap.tab20) ∧
    (20 < manyDemeGraph.demes.length →
      size_history manyDemeGraph defaultConfig =
        ([], some Err.paletteExhausted))) :=
  ⟨rfl, size_history_cmap_selection manyDemeGraph defaultConfig rfl⟩

/-! ### Structure of the main rendering loop (claims C3 and C5) -/

lemma renderEpochs_cons_ok (cfg : Config) (cm : Cmap) (ist : ℝ) (j : ℕ)
    (prev : Option Epoch) (k : ℕ) (e : Epoch) (rest : List Epoch)
    (xy : List ℝ × List ℝ)
    (hxy : epochCoords ist cfg.log_x cfg.num_exp_points k e = Except.ok xy) :
    renderEpochs cfg cm ist j prev k (e :: rest) =
      (DrawCmd.line (cm, j) j k xy.1 xy.2 ::
        (discCmds cm j k prev e ++ annCmds cfg ist j k e ++
          (renderEpochs cfg cm ist j (some e) (k + 1) rest).1),
       (renderEpochs cfg cm ist j (some e) (k + 1) rest).2) := by
  simp only [renderEpochs, hxy]

lemma renderEpochs_cons_err (cfg : Config) (cm : Cmap) (ist : ℝ) (j : ℕ)
    (prev : Option Epoch) (k : ℕ) (e : Epoch) (rest : List Epoch) (err : Err)
    (herr : epochCoords ist cfg.log_x cfg.num_exp_points k e =
      Except.error err) :
    renderEpochs cfg cm ist j prev k (e :: rest) = ([], some err) := by
  simp only [renderEpochs, herr]

lemma mem_discCmds {cm : Cmap} {j k : ℕ} {prev : Option Epoch} {e : Epoch}
    {c : DrawCmd} (hc : c ∈ discCmds cm j k prev e) :
    ∃ p, prev = some p ∧ p.end_size ≠ e.start_size ∧
      c = DrawCmd.epochDisc (cm, j) j k p.end_time e.start_time
        p.end_size e.start_size := by
  match prev with
  | none => simp [discCmds] at hc
  | some p =>
    by_cases hps : p.end_size ≠ e.start_size
    · rw [discCmds, if_pos hps] at hc
      rw [List.mem_singleton] at hc
      exact ⟨p, rfl, hps, hc⟩
    · rw [discCmds, if_neg hps] at hc
      simp at hc

lemma mem_annCmds {cfg : Config} {ist : ℝ} {j k : ℕ} {e : Epoch} {c : DrawCmd}
    (hc : c ∈ annCmds cfg ist j k e) :
    c = DrawCmd.annotateEpoch j k
      (textX cfg.log_x (substStartTime ist e.start_time)
        ((adjustEndTime cfg.log_x e.end_time : ℚ) : ℝ))
      (textY cfg.log_y e.start_size e.end_size) := by
  unfold annCmds at hc
  by_cases ha : cfg.annotate_epochs = true
  · rw [if_pos ha, List.mem_singleton] at hc
    exact hc
  · rw [if_neg ha] at hc
    simp at hc

lemma renderEpochs_no_err (cfg : Config) (cm : Cmap) (ist : ℝ) (j : ℕ) :
    ∀ (es : List Epoch) (prev : Option Epoch) (k : ℕ),
      (∀ e ∈ es, supportedSizeFunction e) →
      (renderEpochs cfg cm ist j prev k es).2 = none := by
  intro es
  induction es with
  | nil => intro prev k _; rfl
  | cons e rest ih =>
    intro prev k hall
    obtain ⟨xy, hxy⟩ := epochCoords_ok ist cfg.log_x cfg.num_exp_points k
      (hall e (List.mem_cons_self _ _))
    rw [renderEpochs_cons_ok cfg cm ist j prev k e rest xy hxy]
    exact ih (some e) (k + 1) (fun e' he' => hall e' (List.mem_cons_of_mem _ he'))

lemma renderEpochs_cmds_epochCmd (cfg : Config) (cm : Cmap) (ist : ℝ) (j : ℕ) :
    ∀ (es : List Epoch) (prev : Option Epoch) (k0 : ℕ),
      ∀ c ∈ (renderEpochs cfg cm ist j prev k0 es).1, ∃ k', epochCmdAt j k' c := by
  intro es
  induction es with
  | nil => intro prev k0 c hc; simp [renderEpochs] at hc
  | cons e rest ih =>
    intro prev k0 c hc
    cases hxy : epochCoords ist cfg.log_x cfg.num_exp_points k0 e with
    | error err =>
      rw [renderEpochs_cons_err cfg cm ist j prev k0 e rest err hxy] at hc
      simp at hc
    | ok xy =>
      rw [renderEpochs_cons_ok cfg cm ist j prev k0 e rest xy hxy] at hc
      simp only [List.mem_cons, List.mem_append] at hc
      rcases hc with rfl | (hc | hc) | hc
      · exact ⟨k0, rfl, rfl⟩
      · obtain ⟨p, _, _, rfl⟩ := mem_discCmds hc
        exact ⟨k0, rfl, rfl⟩
      · rw [mem_annCmds hc]
        exact ⟨k0, rfl, rfl⟩
      · exact ih (some e) (k0 + 1) c hc

lemma renderEpochs_first_err (cfg : Config) (cm : Cmap) (ist : ℝ) (j : ℕ) :
    ∀ (es : List Epoch) (K : ℕ) (ep : Epoch) (prev : Option Epoch) (k0 : ℕ),
      es[K]? = some ep → ¬ supportedSizeFunction ep →
      (∀ e ∈ es.take K, supportedSizeFunction e) →
      (renderEpochs cfg cm ist j prev k0 es).2 =
        some (Err.unsupportedSizeFunction (k0 + K) ep.size_function) ∧
      ∀ c ∈ (renderEpochs cfg cm ist j prev k0 es).1,
        ∃ k', k' < k0 + K ∧ epochCmdAt j k' c := by
  intro es
  induction es with
  | nil => intro K ep prev k0 hK; simp at hK
  | cons e rest ih =>
    intro K ep prev k0 hK hbad hpre
    match K with
    | 0 =>
      rw [List.getElem?_cons_zero] at hK
      injection hK with hK
      subst hK
      rw [renderEpochs_cons_err cfg cm ist j prev k0 e rest _
        (epochCoords_unsupported ist cfg.log_x cfg.num_exp_points k0 hbad)]
      refine ⟨by rw [Nat.add_zero], ?_⟩
      intro c hc
      simp at hc
    | K + 1 =>
      have hsup : supportedSizeFunction e := by
        apply hpre e
        rw [List.take_succ_cons]
        exact List.mem_cons_self _ _
      obtain ⟨xy, hxy⟩ := epochCoords_ok ist cfg.log_x cfg.num_exp_points k0 hsup
      rw [renderEpochs_cons_ok cfg cm ist j prev k0 e rest xy hxy]
      have hK' : rest[K]? = some ep := by simpa using hK
      have hpre' : ∀ e' ∈ rest.take K, supportedSizeFunction e' := by
        intro e' he'
        apply hpre e'
        rw [List.take_succ_cons]
        exact List.mem_cons_of_mem _ he'
      obtain ⟨ih1, ih2⟩ := ih K ep (some e) (k0 + 1) hK' hbad hpre'
      have harith : k0 + 1 + K = k0 + (K + 1) := by omega
      constructor
      · rw [ih1, harith]
      · intro c hc
        simp only [List.mem_cons, List.mem_append] at hc
        rcases hc with rfl | (hc | hc) | hc
        · exact ⟨k0, by omega, rfl, rfl⟩
        · obtain ⟨p, _, _, rfl⟩ := mem_discCmds hc
          exact ⟨k0, by omega, rfl, rfl⟩
        · rw [mem_annCmds hc]
          exact ⟨k0, by omega, rfl, rfl⟩
        · obtain ⟨k', hk', hcmd⟩ := ih2 c hc
          exact ⟨k', by omega, hcmd⟩

lemma demeCmds_demeLevel (cfg : Config) (cm : Cmap) (g : Graph) (ist : ℝ)
    (j : ℕ) (d : Deme) : ∀ c ∈ demeCmds cfg cm g ist j d, demeLevelFrom j c := by
  intro c hc
  unfold demeCmds at hc
  rw [List.mem_append] at hc
  rcases hc with hc | hc
  · revert hc
    match d.start_time, d.epochs.head? with
    | Time.inf, some e0 =>
      intro hc
      rcases List.mem_cons.mp hc with rfl | hc
      · exact rfl
      · by_cases hl : cfg.inf_label = true
        · rw [if_pos hl, List.mem_singleton] at hc
          rw [hc]
          exact rfl
        · rw [if_neg hl] at hc
          simp at hc
    | Time.inf, none => intro hc; simp at hc
    | Time.fin t, ho => intro hc; simp at hc
  · rw [List.mem_flatMap] at hc
    obtain ⟨aid, _, hc⟩ := hc
    revert hc
    match g.lookup aid with
    | none => intro hc; simp at hc
    | some anc =>
      intro hc
      dsimp only at hc
      by_cases hne : size_of_deme_at_time anc d.start_time ≠
          ((((d.epochs.head?).map Epoch.start_size).getD 0 : ℚ) : ℝ)
      · rw [if_pos hne, List.mem_singleton] at hc
        rw [hc]
        exact rfl
      · rw [if_neg hne] at hc
        simp at hc

lemma fromDeme_of_epochCmdAt {j k : ℕ} {c : DrawCmd} (h : epochCmdAt j k c) :
    fromDeme j c := by
  cases c
  all_goals first | exact h.1 | exact h.elim

lemma fromDeme_of_demeLevel {j : ℕ} {c : DrawCmd} (h : demeLevelFrom j c) :
    fromDeme j c := by
  cases c
  all_goals first | exact h | exact h.elim

lemma renderDeme_no_err (cfg : Config) (cm : Cmap) (g : Graph) (ist : ℝ)
    (j : ℕ) (d : Deme) (h : ∀ e ∈ d.epochs, supportedSizeFunction e) :
    (renderDeme cfg cm g ist j d).2 = none ∧
    (renderDeme cfg cm g ist j d).1 =
      (renderEpochs cfg cm ist j none 0 d.epochs).1 ++
        demeCmds cfg cm g ist j d := by
  have h2 := renderEpochs_no_err cfg cm ist j d.epochs none 0 h
  unfold renderDeme
  rw [h2]
  exact ⟨rfl, rfl⟩

lemma renderDeme_err (cfg : Config) (cm : Cmap) (g : Graph) (ist : ℝ)
    (j : ℕ) (d : Deme) (K : ℕ) (ep : Epoch)
    (hK : d.epochs[K]? = some ep) (hbad : ¬ supportedSizeFunction ep)
    (hpre : ∀ e ∈ d.epochs.take K, supportedSizeFunction e) :
    (renderDeme cfg cm g ist j d).2 =
      some (Err.unsupportedSizeFunction K ep.size_function) ∧
    ∀ c ∈ (renderDeme cfg cm g ist j d).1,
      ∃ k', k' < K ∧ epochCmdAt j k' c := by
  obtain ⟨h1, h2⟩ := renderEpochs_first_err cfg cm ist j d.epochs K ep none 0
    hK hbad hpre
  rw [Nat.zero_add] at h1 h2
  unfold renderDeme
  rw [h1]
  exact ⟨rfl, h2⟩

lemma renderDeme_cmds_from (cfg : Config) (cm : Cmap) (g : Graph) (ist : ℝ)
    (j : ℕ) (d : Deme) :
    ∀ c ∈ (renderDeme cfg cm g ist j d).1, fromDeme j c := by
  intro c hc
  unfold renderDeme at hc
  cases h2 : (renderEpochs cfg cm ist j none 0 d.epochs).2 with
  | some err =>
    rw [h2] at hc
    obtain ⟨k', hk'⟩ := renderEpochs_cmds_epochCmd cfg cm ist j d.epochs none 0 c hc
    exact fromDeme_of_epochCmdAt hk'
  | none =>
    rw [h2] at hc
    rw [List.mem_append] at hc
    rcases hc with hc | hc
    · obtain ⟨k', hk'⟩ := renderEpochs_cmds_epochCmd cfg cm ist j d.epochs none 0 c hc
      exact fromDeme_of_epochCmdAt hk'
    · exact fromDeme_of_demeLevel (demeCmds_demeLevel cfg cm g ist j d c hc)

lemma renderDemes_cons_no_err {cfg : Config} {cm : Cmap} {g : Graph} {ist : ℝ}
    {j : ℕ} {d : Deme} (rest : List Deme)
    (hno : (renderDeme cfg cm g ist j d).2 = none) :
    renderDemes cfg cm g ist j (d :: rest) =
      ((renderDeme cfg cm g ist j d).1 ++
          (renderDemes cfg cm g ist (j + 1) rest).1,
        (renderDemes cfg cm g ist (j + 1) rest).2) := by
  simp only [renderDemes, hno]

lemma renderDemes_cons_err {cfg : Config} {cm : Cmap} {g : Graph} {ist : ℝ}
    {j : ℕ} {d : Deme} (rest : List Deme) {err : Err}
    (herr : (renderDeme cfg cm g ist j d).2 = some err) :
    renderDemes cfg cm g ist j (d :: rest) =
      ((renderDeme cfg cm g ist j d).1, some err) := by
  simp only [renderDemes, herr]

lemma renderDemes_no_err (cfg : Config) (cm : Cmap) (g : Graph) (ist : ℝ) :
    ∀ (ds : List Deme) (j0 : ℕ),
      (∀ d ∈ ds, ∀ e ∈ d.epochs, supportedSizeFunction e) →
      (renderDemes cfg cm g ist j0 ds).2 = none := by
  intro ds
  induction ds with
  | nil => intro j0 _; rfl
  | cons d rest ih =>
    intro j0 hall
    have hno := (renderDeme_no_err cfg cm g ist j0 d
      (hall d (List.mem_cons_self _ _))).1
    rw [renderDemes_cons_no_err rest hno]
    exact ih (j0 + 1) (fun d' hd' e he => hall d' (List.mem_cons_of_mem _ hd') e he)

lemma renderDemes_err (cfg : Config) (cm : Cmap) (g : Graph) (ist : ℝ) :
    ∀ (ds : List Deme) (J : ℕ) (d : Deme) (K : ℕ) (ep : Epoch) (j0 : ℕ),
      ds[J]? = some d →
      (∀ d' ∈ ds.take J, ∀ e ∈ d'.epochs, supportedSizeFunction e) →
      d.epochs[K]? = some ep → ¬ supportedSizeFunction ep →
      (∀ e ∈ d.epochs.take K, supportedSizeFunction e) →
      (renderDemes cfg cm g ist j0 ds).2 =
        some (Err.unsupportedSizeFunction K ep.size_function) ∧
      ∀ c ∈ (renderDemes cfg cm g ist j0 ds).1,
        (∃ j', j' < j0 + J ∧ fromDeme j' c) ∨
        (∃ k', k' < K ∧ epochCmdAt (j0 + J) k' c) := by
  intro ds
  induction ds with
  | nil => intro J d K ep j0 hJ; simp at hJ
  | cons d0 rest ih =>
    intro J d K ep j0 hJ hpreD hK hbad hpreE
    match J with
    | 0 =>
      rw [List.getElem?_cons_zero] at hJ
      injection hJ with hJ
      subst hJ
      obtain ⟨h1, h2⟩ := renderDeme_err cfg cm g ist j0 d0 K ep hK hbad hpreE
      rw [renderDemes_cons_err rest h1]
      refine ⟨rfl, ?_⟩
      intro c hc
      obtain ⟨k', hk', hcmd⟩ := h2 c hc
      refine Or.inr ⟨k', hk', ?_⟩
      rw [Nat.add_zero]
      exact hcmd
    | J + 1 =>
      have hd0 : ∀ e ∈ d0.epochs, supportedSizeFunction e := by
        apply hpreD d0
        rw [List.take_succ_cons]
        exact List.mem_cons_self _ _
      obtain ⟨hno, _⟩ := renderDeme_no_err cfg cm g ist j0 d0 hd0
      rw [renderDemes_cons_no_err rest hno]
      have hJ' : rest[J]? = some d := by simpa using hJ
      have hpreD' : ∀ d' ∈ rest.take J, ∀ e ∈ d'.epochs,
          supportedSizeFunction e := by
        intro d' hd' e he
        apply hpreD d' _ e he
        rw [List.take_succ_cons]
        exact List.mem_cons_of_mem _ hd'
      obtain ⟨ih1, ih2⟩ := ih J d K ep (j0 + 1) hJ' hpreD' hK hbad hpreE
      refine ⟨ih1, ?_⟩
      intro c hc
      rw [List.mem_append] at hc
      rcases hc with hc | hc
      · exact Or.inl ⟨j0, by omega, renderDeme_cmds_from cfg cm g ist j0 d0 c hc⟩
      · rcases ih2 c hc with ⟨j', hj', hf⟩ | ⟨k', hk', hcm'⟩
        · exact Or.inl ⟨j', by omega, hf⟩
        · refine Or.inr ⟨k', hk', ?_⟩
          have harith : j0 + (J + 1) = j0 + 1 + J := by omega
          rw [harith]
          exact hcm'

lemma renderEpochs_disc_mem_head (cfg : Config) (cm : Cmap) (ist : ℝ)
    (j k0 : ℕ) (prev : Option Epoch) (p e : Epoch) (rest : List Epoch)
    (hp : supportedSizeFunction p) (he : supportedSizeFunction e)
    (hne : p.end_size ≠ e.start_size) :
    DrawCmd.epochDisc (cm, j) j (k0 + 1) p.end_time e.start_time
        p.end_size e.start_size
      ∈ (renderEpochs cfg cm ist j prev k0 (p :: e :: rest)).1 := by
  obtain ⟨xy, hxy⟩ := epochCoords_ok ist cfg.log_x cfg.num_exp_points k0 hp
  obtain ⟨xy2, hxy2⟩ := epochCoords_ok ist cfg.log_x cfg.num_exp_points (k0 + 1) he
  rw [renderEpochs_cons_ok cfg cm ist j prev k0 p (e :: rest) xy hxy,
    renderEpochs_cons_ok cfg cm ist j (some p) (k0 + 1) e rest xy2 hxy2]
  have hdisc : discCmds cm j (k0 + 1) (some p) e =
      [DrawCmd.epochDisc (cm, j) j (k0 + 1) p.end_time e.start_time
        p.end_size e.start_size] := by
    rw [discCmds, if_pos hne]
  simp [hdisc]

lemma renderEpochs_disc_mem (cfg : Config) (cm : Cmap) (ist : ℝ) (j : ℕ) :
    ∀ (es : List Epoch) (K k0 : ℕ) (prev : Option Epoch) (p e : Epoch),
      es[K]? = some p → es[K + 1]? = some e →
      (∀ e' ∈ es, supportedSizeFunction e') → p.end_size ≠ e.start_size →
      DrawCmd.epochDisc (cm, j) j (k0 + K + 1) p.end_time e.start_time
          p.end_size e.start_size
        ∈ (renderEpochs cfg cm ist j prev k0 es).1 := by
  intro es
  induction es with
  | nil => intro K k0 prev p e hp _ _ _; simp at hp
  | cons a rest ih =>
    intro K k0 prev p e hp he hall hne
    match K with
    | 0 =>
      rw [List.getElem?_cons_zero] at hp
      injection hp with hp
      subst hp
      have he' : rest[0]? = some e := by simpa using he
      cases rest with
      | nil => simp at he'
      | cons b rest' =>
        rw [List.getElem?_cons_zero] at he'
        injection he' with he'
        subst he'
        rw [Nat.add_zero]
        exact renderEpochs_disc_mem_head cfg cm ist j k0 prev a b rest'
          (hall a (List.mem_cons_self _ _))
          (hall b (List.mem_cons_of_mem _ (List.mem_cons_self _ _))) hne
    | K + 1 =>
      obtain ⟨xy, hxy⟩ := epochCoords_ok ist cfg.log_x cfg.num_exp_points k0
        (hall a (List.mem_cons_self _ _))
      rw [renderEpochs_cons_ok cfg cm ist j prev k0 a rest xy hxy]
      have hmem := ih K (k0 + 1) (some a) p e (by simpa using hp)
        (by simpa using he) (fun e' h => hall e' (List.mem_cons_of_mem _ h)) hne
      have harith : k0 + 1 + K + 1 = k0 + (K + 1) + 1 := by omega
      rw [harith] at hmem
      exact List.mem_cons_of_mem _ (List.mem_append_right _ hmem)

lemma renderEpochs_disc_sound (cfg : Config) (cm : Cmap) (ist : ℝ) (j : ℕ) :
    ∀ (es : List Epoch) (prev : Option Epoch) (k0 : ℕ)
      {col : Cmap × ℕ} {j' k' : ℕ} {t0 : ℚ} {t1 : Time} {s0 s1 : ℚ},
      DrawCmd.epochDisc col j' k' t0 t1 s0 s1 ∈
        (renderEpochs cfg cm ist j prev k0 es).1 →
      s0 ≠ s1 := by
  intro es
  induction es with
  | nil => intro prev k0 col j' k' t0 t1 s0 s1 hc; simp [renderEpochs] at hc
  | cons e rest ih =>
    intro prev k0 col j' k' t0 t1 s0 s1 hc
    cases hxy : epochCoords ist cfg.log_x cfg.num_exp_points k0 e with
    | error err =>
      rw [renderEpochs_cons_err cfg cm ist j prev k0 e rest err hxy] at hc
      simp at hc
    | ok xy =>
      rw [renderEpochs_cons_ok cfg cm ist j prev k0 e rest xy hxy] at hc
      simp only [List.mem_cons, List.mem_append] at hc
      rcases hc with hc | (hc | hc) | hc
      · exact absurd hc (by simp)
      · obtain ⟨p, _, hps, hceq⟩ := mem_discCmds hc
        injection hceq with _ _ _ _ _ h6 h7
        rw [h6, h7]
        exact hps
      · have := mem_annCmds hc
        exact absurd this (by simp)
      · exact ih (some e) (k0 + 1) hc

lemma not_epochDisc_of_demeLevel {j : ℕ} {c : DrawCmd} (h : demeLevelFrom j c)
    {col : Cmap × ℕ} {j' k' : ℕ} {t0 : ℚ} {t1 : Time} {s0 s1 : ℚ} :
    c ≠ DrawCmd.epochDisc col j' k' t0 t1 s0 s1 := by
  cases c
  all_goals simp
  all_goals exact h.elim

lemma renderDeme_disc_sound (cfg : Config) (cm : Cmap) (g : Graph) (ist : ℝ)
    (j : ℕ) (d : Deme) {col : Cmap × ℕ} {j' k' : ℕ} {t0 : ℚ} {t1 : Time}
    {s0 s1 : ℚ}
    (hc : DrawCmd.epochDisc col j' k' t0 t1 s0 s1 ∈
      (renderDeme cfg cm g ist j d).1) : s0 ≠ s1 := by
  unfold renderDeme at hc
  cases h2 : (renderEpochs cfg cm ist j none 0 d.epochs).2 with
  | some err =>
    rw [h2] at hc
    exact renderEpochs_disc_sound cfg cm ist j d.epochs none 0 hc
  | none =>
    rw [h2] at hc
    rw [List.mem_append] at hc
    rcases hc with hc | hc
    · exact renderEpochs_disc_sound cfg cm ist j d.epochs none 0 hc
    · exact absurd rfl (not_epochDisc_of_demeLevel
        (demeCmds_demeLevel cfg cm g ist j d _ hc))

lemma renderDemes_disc_sound (cfg : Config) (cm : Cmap) (g : Graph) (ist : ℝ) :
    ∀ (ds : List Deme) (j0 : ℕ) {col : Cmap × ℕ} {j' k' : ℕ} {t0 : ℚ}
      {t1 : Time} {s0 s1 : ℚ},
      DrawCmd.epochDisc col j' k' t0 t1 s0 s1 ∈
        (renderDemes cfg cm g ist j0 ds).1 →
      s0 ≠ s1 := by
  intro ds
  induction ds with
  | nil => intro j0 col j' k' t0 t1 s0 s1 hc; simp [renderDemes] at hc
  | cons d rest ih =>
    intro j0 col j' k' t0 t1 s0 s1 hc
    cases herr : (renderDeme cfg cm g ist j0 d).2 with
    | some err =>
      rw [renderDemes_cons_err rest herr] at hc
      exact renderDeme_disc_sound cfg cm g ist j0 d hc
    | none =>
      rw [renderDemes_cons_no_err rest herr] at hc
      rw [List.mem_append] at hc
      rcases hc with hc | hc
      · exact renderDeme_disc_sound cfg cm g ist j0 d hc
      · exact ih (j0 + 1) hc

lemma renderDemes_mem (cfg : Config) (cm : Cmap) (g : Graph) (ist : ℝ) :
    ∀ (ds : List Deme) (J j0 : ℕ) (d : Deme) (c : DrawCmd),
      ds[J]? = some d →
      (∀ d' ∈ ds, ∀ e ∈ d'.epochs, supportedSizeFunction e) →
      c ∈ (renderDeme cfg cm g ist (j0 + J) d).1 →
      c ∈ (renderDemes cfg cm g ist j0 ds).1 := by
  intro ds
  induction ds with
  | nil => intro J j0 d c hJ; simp at hJ
  | cons d0 rest ih =>
    intro J j0 d c hJ hall hc
    have hno := (renderDeme_no_err cfg cm g ist j0 d0
      (hall d0 (List.mem_cons_self _ _))).1
    rw [renderDemes_cons_no_err rest hno]
    rw [List.mem_append]
    match J with
    | 0 =>
      rw [List.getElem?_cons_zero] at hJ
      injection hJ with hJ
      subst hJ
      rw [Nat.add_zero] at hc
      exact Or.inl hc
    | J + 1 =>
      refine Or.inr (ih J (j0 + 1) d c (by simpa using hJ)
        (fun d' hd' e he => hall d' (List.mem_cons_of_mem _ hd') e he) ?_)
      have harith : j0 + 1 + J = j0 + (J + 1) := by omega
      rw [harith]
      exact hc

lemma mem_of_getElemEq {α : Type} {l : List α} {n : ℕ} {a : α}
    (h : l[n]? = some a) : a ∈ l := by
  obtain ⟨hlt, rfl⟩ := List.getElem?_eq_some_iff.mp h
  exact List.getElem_mem hlt

lemma originBefore_of (J K : ℕ) (c : DrawCmd)
    (h : (∃ j', j' < J ∧ fromDeme j' c) ∨
      (∃ k', k' < K ∧ epochCmdAt J k' c)) :
    originBefore J K c := by
  rcases h with ⟨j', hj', hf⟩ | ⟨k', hk', he⟩
  · cases c
    case line => exact Or.inl (lt_of_eq_of_lt hf hj')
    case epochDisc => exact Or.inl (lt_of_eq_of_lt hf hj')
    case annotateEpoch => exact Or.inl (lt_of_eq_of_lt hf hj')
    case arrow => exact lt_of_eq_of_lt hf hj'
    case infLabel => exact lt_of_eq_of_lt hf hj'
    case ancestorDisc => exact lt_of_eq_of_lt hf hj'
    case legend => exact hf.elim
    case setTitle => exact hf.elim
    case setXlim => exact hf.elim
    case setXlabel => exact hf.elim
  · cases c
    case line => exact Or.inr ⟨he.1, lt_of_eq_of_lt he.2 hk'⟩
    case epochDisc => exact Or.inr ⟨he.1, lt_of_eq_of_lt he.2 hk'⟩
    case annotateEpoch => exact Or.inr ⟨he.1, lt_of_eq_of_lt he.2 hk'⟩
    case arrow => exact he.elim
    case infLabel => exact he.elim
    case ancestorDisc => exact he.elim
    case legend => exact he.elim
    case setTitle => exact he.elim
    case setXlim => exact he.elim
    case setXlabel => exact he.elim

lemma size_history_err_case (g : Graph) (cfg : Config) (cm : Cmap) (ist : ℝ)
    {err : Err}
    (hcm : chooseCmap cfg.cmap g.demes.length = Except.ok cm)
    (hist : inf_start_time g cfg.inf_ratio cfg.log_x = some ist)
    (herr : (renderDemes cfg cm g ist 0 g.demes).2 = some err) :
    size_history g cfg = ((renderDemes cfg cm g ist 0 g.demes).1, some err) := by
  unfold size_history
  simp only [hcm, hist, herr]

lemma size_history_ok_case (g : Graph) (cfg : Config) (cm : Cmap) (ist : ℝ)
    (hcm : chooseCmap cfg.cmap g.demes.length = Except.ok cm)
    (hist : inf_start_time g cfg.inf_ratio cfg.log_x = some ist)
    (hno : (renderDemes cfg cm g ist 0 g.demes).2 = none) :
    size_history g cfg =
      ((renderDemes cfg cm g ist 0 g.demes).1 ++
        (if 1 < g.demes.length then [DrawCmd.legend (g.demes.length / 2)]
         else []) ++
        (match cfg.title with
         | some t => [DrawCmd.setTitle t]
         | none => []) ++
        [DrawCmd.setXlim (if cfg.log_x then 1 else 0) ist,
         DrawCmd.setXlabel g.time_units], none) := by
  unfold size_history
  simp only [hcm, hist, hno]

/-- C3 (amended): when a graph contains an epoch whose `size_function`
is neither "constant" nor "exponential" — the first such epoch in
iteration order being epoch `K` of the deme at index `J` —
`size_history` raises a `ValueError` carrying the offending epoch's
index and its `size_function` string (the deme is not named in the
message), and every drawing call it issued belongs to a deme before `J`
or to an epoch of deme `J` before `K`; nothing is drawn for the
offending epoch or anything after it, but calls for earlier demes and
epochs have already been issued (see
`size_history_draws_before_error`). -/
theorem size_history_unsupported_raises (g : Graph) (cfg : Config) (cm : Cmap)
    (ist : ℝ) (J K : ℕ) (d : Deme) (ep : Epoch)
    (hcm : chooseCmap cfg.cmap g.demes.length = Except.ok cm)
    (hist : inf_start_time g cfg.inf_ratio cfg.log_x = some ist)
    (hd : g.demes[J]? = some d) (hK : d.epochs[K]? = some ep)
    (hbad : ¬ supportedSizeFunction ep)
    (hpreD : ∀ d' ∈ g.demes.take J, ∀ e ∈ d'.epochs, supportedSizeFunction e)
    (hpreE : ∀ e ∈ d.epochs.take K, supportedSizeFunction e) :
    (size_history g cfg).2 =
      some (Err.unsupportedSizeFunction K ep.size_function) ∧
    ∀ c ∈ (size_history g cfg).1, originBefore J K c := by
  obtain ⟨h1, h2⟩ := renderDemes_err cfg cm g ist g.demes J d K ep 0 hd hpreD
    hK hbad hpreE
  rw [Nat.zero_add] at h2
  rw [size_history_err_case g cfg cm ist hcm hist h1]
  refine ⟨rfl, ?_⟩
  intro c hc
  exact originBefore_of J K c (h2 c hc)

/-- Witness for the amended C3: `logisticGraph` with the default
options raises for epoch 0 of deme 1 ("b", the "logistic" epoch). -/
theorem size_history_unsupported_raises_witness :
    chooseCmap defaultConfig.cmap logisticGraph.demes.length =
      Except.ok Cmap.tab10 ∧
    inf_start_time logisticGraph defaultConfig.inf_ratio defaultConfig.log_x =
      some (((9 : ℚ) : ℝ) / (1 - ((1/10 : ℚ) : ℝ))) ∧
    logisticGraph.demes[1]? = some demeB ∧
    demeB.epochs[0]? = some logisticEpoch ∧
    ¬ supportedSizeFunction logisticEpoch ∧
    ((size_history logisticGraph defaultConfig).2 =
        some (Err.unsupportedSizeFunction 0 logisticEpoch.size_function) ∧
      ∀ c ∈ (size_history logisticGraph defaultConfig).1,
        originBefore 1 0 c) := by
  have hmax : seqMax (epoch0_times logisticGraph) = some 9 := by decide
  have hist : inf_start_time logisticGraph defaultConfig.inf_ratio
      defaultConfig.log_x =
      some (((9 : ℚ) : ℝ) / (1 - ((1/10 : ℚ) : ℝ))) :=
    inf_start_time_linear (1/10) hmax (by norm_num)
  exact ⟨rfl, hist, by decide, by decide, by decide,
    size_history_unsupported_raises logisticGraph defaultConfig Cmap.tab10
      (((9 : ℚ) : ℝ) / (1 - ((1/10 : ℚ) : ℝ))) 1 0 demeB logisticEpoch rfl hist
      (by decide) (by decide) (by decide) (by decide) (by decide)⟩

/-- C3 counterexample: on `logisticGraph` (deme "a" plottable, deme
"b" with a "logistic" epoch) `size_history` raises the
unsupported-size-function error, yet the drawing calls already issued
for deme "a" are not empty — refuting "no drawing call is issued
(nothing is drawn before the error)".  The error also carries only the
epoch index and the `size_function` string, not the deme. -/
theorem size_history_draws_before_error :
    (size_history logisticGraph defaultConfig).2 =
      some (Err.unsupportedSizeFunction 0 "logistic") ∧
    (size_history logisticGraph defaultConfig).1 ≠ [] := by
  have hmax : seqMax (epoch0_times logisticGraph) = some 9 := by decide
  have hist : inf_start_time logisticGraph defaultConfig.inf_ratio
      defaultConfig.log_x =
      some (((9 : ℚ) : ℝ) / (1 - ((1/10 : ℚ) : ℝ))) :=
    inf_start_time_linear (1/10) hmax (by norm_num)
  obtain ⟨h1, _⟩ := renderDemes_err defaultConfig Cmap.tab10 logisticGraph
    (((9 : ℚ) : ℝ) / (1 - ((1/10 : ℚ) : ℝ))) logisticGraph.demes 1 demeB 0
    logisticEpoch 0 (by decide) (by decide) (by decide) (by decide) (by decide)
  rw [size_history_err_case logisticGraph defaultConfig Cmap.tab10
    (((9 : ℚ) : ℝ) / (1 - ((1/10 : ℚ) : ℝ))) rfl hist h1]
  refine ⟨rfl, ?_⟩
  have hsupA : ∀ e ∈ demeA.epochs, supportedSizeFunction e := by decide
  have hno : (renderDeme defaultConfig Cmap.tab10 logisticGraph
      (((9 : ℚ) : ℝ) / (1 - ((1/10 : ℚ) : ℝ))) 0 demeA).2 = none :=
    (renderDeme_no_err _ _ _ _ _ _ hsupA).1
  have hA := (renderDeme_no_err defaultConfig Cmap.tab10 logisticGraph
    (((9 : ℚ) : ℝ) / (1 - ((1/10 : ℚ) : ℝ))) 0 demeA hsupA).2
  have hdemes : logisticGraph.demes = demeA :: [demeB] := rfl
  rw [hdemes, renderDemes_cons_no_err [demeB] hno]
  obtain ⟨xy, hxy⟩ := epochCoords_ok
    (((9 : ℚ) : ℝ) / (1 - ((1/10 : ℚ) : ℝ))) defaultConfig.log_x
    defaultConfig.num_exp_points 0
    (show supportedSizeFunction stepEpochOld by decide)
  intro hcon
  rw [hA, show demeA.epochs = [stepEpochOld] from rfl,
    renderEpochs_cons_ok defaultConfig Cmap.tab10 _ 0 none 0 stepEpochOld []
      xy hxy] at hcon
  simp at hcon

/-- C5: for any graph all of whose epochs are plottable, the dotted
discontinuity connector between consecutive epochs `K` and `K + 1` of
the deme at index `J` — joining (epoch `K` end time, end size) to
(epoch `K + 1` start time, start size) — is drawn by `size_history` if
and only if epoch `K`'s end size differs from epoch `K + 1`'s start
size. -/
theorem size_history_discontinuity_iff (g : Graph) (cfg : Config) (cm : Cmap)
    (ist : ℝ) (J K : ℕ) (d : Deme) (p e : Epoch)
    (hcm : chooseCmap cfg.cmap g.demes.length = Except.ok cm)
    (hist : inf_start_time g cfg.inf_ratio cfg.log_x = some ist)
    (hd : g.demes[J]? = some d)
    (hp : d.epochs[K]? = some p) (he : d.epochs[K + 1]? = some e)
    (hall : ∀ d' ∈ g.demes, ∀ e' ∈ d'.epochs, supportedSizeFunction e') :
    (DrawCmd.epochDisc (cm, J) J (K + 1) p.end_time e.start_time
        p.end_size e.start_size ∈ (size_history g cfg).1) ↔
      p.end_size ≠ e.start_size := by
  have hno : (renderDemes cfg cm g ist 0 g.demes).2 = none :=
    renderDemes_no_err cfg cm g ist g.demes 0 hall
  rw [size_history_ok_case g cfg cm ist hcm hist hno]
  have hd_mem : d ∈ g.demes := mem_of_getElemEq hd
  constructor
  · intro hmem
    simp only [List.mem_append] at hmem
    rcases hmem with ((hmem | hmem) | hmem) | hmem
    · exact renderDemes_disc_sound cfg cm g ist g.demes 0 hmem
    · revert hmem
      by_cases h1 : 1 < g.demes.length
      · rw [if_pos h1, List.mem_singleton]
        intro hmem
        exact absurd hmem (by simp)
      · rw [if_neg h1]
        intro hmem
        simp at hmem
    · revert hmem
      match cfg.title with
      | some t =>
        rw [List.mem_singleton]
        intro hmem
        exact absurd hmem (by simp)
      | none => intro hmem; simp at hmem
    · intro hss
      simp at hmem
  · intro hne
    have hmem1 : DrawCmd.epochDisc (cm, J) J (K + 1) p.end_time e.start_time
        p.end_size e.start_size ∈
        (renderEpochs cfg cm ist J none 0 d.epochs).1 := by
      have := renderEpochs_disc_mem cfg cm ist J d.epochs K 0 none p e hp he
        (hall d hd_mem) hne
      rwa [Nat.zero_add] at this
    have hmem2 : DrawCmd.epochDisc (cm, J) J (K + 1) p.end_time e.start_time
        p.end_size e.start_size ∈ (renderDeme cfg cm g ist J d).1 := by
      rw [(renderDeme_no_err cfg cm g ist J d (hall d hd_mem)).2]
      exact List.mem_append_left _ hmem1
    have hmem3 := renderDemes_mem cfg cm g ist g.demes J 0 d _ hd hall
      (by rw [Nat.zero_add]; exact hmem2)
    exact List.mem_append_left _ (List.mem_append_left _
      (List.mem_append_left _ hmem3))

/-- Witness for C5 at `stepGraph`, whose two constant epochs meet with
sizes 100 and 200: the connector for epochs 0 and 1 of deme 0 is
drawn. -/
theorem size_history_discontinuity_iff_witness :
    chooseCmap defaultConfig.cmap stepGraph.demes.length =
      Except.ok Cmap.tab10 ∧
    inf_start_time stepGraph defaultConfig.inf_ratio defaultConfig.log_x =
      some (((9 : ℚ) : ℝ) / (1 - ((1/10 : ℚ) : ℝ))) ∧
    stepGraph.demes[0]? = some stepDeme ∧
    stepDeme.epochs[0]? = some stepEpochOld ∧
    stepDeme.epochs[1]? = some stepEpochNew ∧
    ((DrawCmd.epochDisc (Cmap.tab10, 0) 0 1 stepEpochOld.end_time
        stepEpochNew.start_time stepEpochOld.end_size stepEpochNew.start_size
        ∈ (size_history stepGraph defaultConfig).1) ↔
      stepEpochOld.end_size ≠ stepEpochNew.start_size) := by
  have hmax : seqMax (epoch0_times stepGraph) = some 9 := by decide
  have hist : inf_start_time stepGraph defaultConfig.inf_ratio
      defaultConfig.log_x =
      some (((9 : ℚ) : ℝ) / (1 - ((1/10 : ℚ) : ℝ))) :=
    inf_start_time_linear (1/10) hmax (by norm_num)
  exact ⟨rfl, hist, by decide, by decide, by decide,
    size_history_discontinuity_iff stepGraph defaultConfig Cmap.tab10
      (((9 : ℚ) : ℝ) / (1 - ((1/10 : ℚ) : ℝ))) 0 0 stepDeme stepEpochOld
      stepEpochNew rfl hist (by decide) (by decide) (by decide) (by decide)⟩
